import Mathlib

/-!
Shallow embedding of the progressive-reveal session card and the Cognizance
drill-down navigator from src/pages/ArticleDetail.tsx, together with the data
model from src/types/index.ts. Machine numbers are modelled as Nat (with Int
where the source computes a possibly negative value such as stepIndex - 1),
JavaScript optional fields as Option, and JavaScript arrays as List.
-/

namespace LeadershipLab

/-- SessionResource from src/types/index.ts: title, url, optional source. -/
structure SessionResource where
  title : String
  url : String
  source : Option String
deriving DecidableEq

/-- Introspection from src/types/index.ts: a titled block of prompts. -/
structure Introspection where
  title : String
  prompts : List String
deriving DecidableEq

/-- Session record from src/types/index.ts. The fourC field is one of four
strings in the source; it is kept as a String here. -/
structure Session where
  id : String
  name : String
  day : Nat
  time : String
  fourC : String
  coreTopics : List String
  articles : List Nat
  hasContent : Bool
  emptyReason : Option String
  description : Option String
  discussionPoints : Option (List String)
  introspections : Option (List Introspection)
  resources : Option (List SessionResource)
deriving DecidableEq

/-- RevealItem tagged union from src/pages/ArticleDetail.tsx lines 236-242. -/
inductive RevealItem where
  | description (text : String)
  | coreTopics (topics : List String)
  | discussionPoint (text : String) (index : Nat) (total : Nat)
  | introspection (data : Introspection)
  | resources (data : List SessionResource)
  | articles
deriving DecidableEq

/-- JavaScript truthiness of an optional string: undefined and the empty
string are falsy, every other string is truthy. This models the guard
`if (session.description)` in buildRevealItems. -/
def strTruthy : Option String → Bool
  | some s => s != ""
  | none => false

/-- The discussion-point block of buildRevealItems: the forEach loop at
lines 251-253 pushes one discussionPoint item per entry, carrying its index
and the total count. -/
def dpItems (total : Nat) : Nat → List String → List RevealItem
  | _, [] => []
  | i, t :: ts => RevealItem.discussionPoint t i total :: dpItems total (i + 1) ts

/-- buildRevealItems from src/pages/ArticleDetail.tsx lines 244-267, block by
block in source order: description if truthy, coreTopics always, one item per
discussion point, one item per introspection, a resources item when resources
is present and non-empty, an articles marker when articles is non-empty. -/
def buildRevealItems (s : Session) : List RevealItem :=
  (match s.description with
    | some d => if d != "" then [RevealItem.description d] else []
    | none => []) ++
  [RevealItem.coreTopics s.coreTopics] ++
  (match s.discussionPoints with
    | some dps => dpItems dps.length 0 dps
    | none => []) ++
  (match s.introspections with
    | some xs => xs.map RevealItem.introspection
    | none => []) ++
  (match s.resources with
    | some rs => if rs.length > 0 then [RevealItem.resources rs] else []
    | none => []) ++
  (if s.articles.length > 0 then [RevealItem.articles] else [])

/-- The constructor tag of a RevealItem, used to state the fixed emission
order of buildRevealItems independently of the payloads. -/
inductive ItemKind where
  | desc
  | core
  | dp
  | intro
  | res
  | art
deriving DecidableEq

/-- Tag classifier for RevealItem. -/
def kindOf : RevealItem → ItemKind
  | RevealItem.description _ => ItemKind.desc
  | RevealItem.coreTopics _ => ItemKind.core
  | RevealItem.discussionPoint _ _ _ => ItemKind.dp
  | RevealItem.introspection _ => ItemKind.intro
  | RevealItem.resources _ => ItemKind.res
  | RevealItem.articles => ItemKind.art

/-- The character class of the JavaScript regex escape backslash-s restricted
to its ASCII members; the data in this repository only ever uses a plain
space after the numeral. -/
def isJsSpace (c : Char) : Bool :=
  c == ' ' || c == '\t' || c == '\n' || c == '\r' ||
    c == Char.ofNat 11 || c == Char.ofNat 12

/-- Test for the leading number-dot-space pattern of the source regex
(one or more digits, a dot, a whitespace character) used at
src/pages/ArticleDetail.tsx line 394. -/
def matchesNumbered (s : String) : Bool :=
  let cs := s.data
  let ds := cs.takeWhile Char.isDigit
  !ds.isEmpty &&
    match cs.drop ds.length with
    | c1 :: c2 :: _ => c1 == '.' && isJsSpace c2
    | _ => false

/-- Strip the leading number-dot-space pattern when it matches, as the source
replace call at line 395 does (digits, the dot, and one whitespace char). -/
def stripNumbered (s : String) : String :=
  if matchesNumbered s then
    String.mk (s.data.drop ((s.data.takeWhile Char.isDigit).length + 2))
  else s

/-- Inner state of the grouping loop of SessionContentDisplay (lines
386-399): the current head point and its accumulated (reversed) children.
On a matching point the stripped text joins the children of the current
head; on a non-matching point the current group is emitted and a new group
starts. -/
def groupAux (head : String) (children : List String) :
    List String → List (String × List String)
  | [] => [(head, children.reverse)]
  | p :: rest =>
    if matchesNumbered p then groupAux head (stripNumbered p :: children) rest
    else (head, children.reverse) :: groupAux p [] rest

/-- The grouping pass of SessionContentDisplay lines 383-399: scan the
discussion points in order, each point opens a group and the maximal
following run of number-dot-space points becomes its children list,
prefixes stripped. -/
def groupDiscussionPoints : List String → List (String × List String)
  | [] => []
  | p :: rest => groupAux p [] rest

/-- advance from SessionCard (lines 900-903): increment the step only while
it is below the item count. -/
def advance (totalSteps step : Nat) : Nat :=
  if step < totalSteps then step + 1 else step

/-- goBack from SessionCard (lines 905-908): decrement the step only while
it is positive. -/
def goBack (step : Nat) : Nat :=
  if step > 0 then step - 1 else step

/-- revealAll from SessionCard (lines 910-913): jump to the item count from
any state. -/
def revealAll (totalSteps : Nat) (_step : Nat) : Nat := totalSteps

/-- The collapse effect of SessionCard (lines 896-898): when the card is not
expanded the step is reset to 0, otherwise it is left alone. -/
def collapseReset (isExpanded : Bool) (step : Nat) : Nat :=
  if !isExpanded then 0 else step

/-- Keyboard advance (line 920): right arrow or space moves to
min (step + 1) totalSteps. -/
def keyAdvance (totalSteps step : Nat) : Nat := min (step + 1) totalSteps

/-- Keyboard retreat (line 923): left arrow moves to max (step - 1) 0. -/
def keyRetreat (step : Nat) : Nat := max (step - 1) 0

/-- Iterated advance: apply advance n times starting from a given step. -/
def iterateAdvance (totalSteps : Nat) : Nat → Nat → Nat
  | 0, step => step
  | n + 1, step => iterateAdvance totalSteps n (advance totalSteps step)

/-- Item classification flags of renderItem (lines 934-937). The source
computes step - 1 in JavaScript arithmetic, where 0 - 1 is -1, so the
comparisons are taken over Int. Current: idx equals step - 1. -/
def isCurrent (step idx : Nat) : Bool := decide ((idx : Int) = (step : Int) - 1)

/-- Past flag of renderItem: idx strictly below step - 1 over Int. -/
def isPast (step idx : Nat) : Bool := decide ((idx : Int) < (step : Int) - 1)

/-- Visible flag of renderItem: idx strictly below step; an item with
isVisible false renders as nothing (line 939). -/
def isVisible (step idx : Nat) : Bool := decide ((idx : Int) < (step : Int))

/-- CognizanceSection union from src/pages/ArticleDetail.tsx line 270. -/
inductive CognizanceSection where
  | grid
  | culture
  | goalsAck
  | colleaguesEnv
  | next6
  | budget
  | politics
  | network
deriving DecidableEq

/-- Initial drill state (line 581): useState starts at the grid. -/
def initialSection : CognizanceSection := CognizanceSection.grid

/-- openSection (lines 591-594) sets the active section to its argument,
whatever the current state. -/
def openSection (_current target : CognizanceSection) : CognizanceSection :=
  target

/-- goBackToGrid (lines 586-589) sets the active section back to the grid,
whatever the current state. -/
def goBackToGrid (_current : CognizanceSection) : CognizanceSection :=
  CognizanceSection.grid

/-- Remove the first occurrence of pat from a character list, as the
JavaScript string replace with a plain string pattern and empty replacement
does. -/
def removeFirstOcc (pat : List Char) : List Char → List Char
  | [] => []
  | c :: cs =>
    if pat.isPrefixOf (c :: cs) then (c :: cs).drop pat.length
    else c :: removeFirstOcc pat cs

/-- The JavaScript startsWith test on the video-break marker
(line 981). -/
def startsWithVB (text : String) : Bool :=
  "Video Break:".data.isPrefixOf text.data

/-- The strip applied at line 983: replace the first occurrence of the
marker followed by a space with the empty string. -/
def stripVideoBreak (text : String) : String :=
  String.mk (removeFirstOcc "Video Break: ".data text.data)

/-- The resource lookup at lines 982-984: find the first resource whose
title equals the stripped text; an absent resources field finds nothing. -/
def findVideoResource (resources : Option (List SessionResource))
    (text : String) : Option SessionResource :=
  (resources.getD []).find? (fun r => r.title == stripVideoBreak text)

/-- Shape of the rendered discussion point: either an external link to a
url or a plain text card. -/
inductive DPRendering where
  | externalLink (url : String)
  | plainText (text : String)
deriving DecidableEq

/-- The discussionPoint branch of renderItem (lines 980-1031): a point
whose text starts with the marker and whose stripped text matches a
resource title renders as an external link to that resource url; every
other point renders as plain text. -/
def renderDiscussionPoint (s : Session) (text : String) : DPRendering :=
  if startsWithVB text then
    match findVideoResource s.resources text with
    | some r => DPRendering.externalLink r.url
    | none => DPRendering.plainText text
  else DPRendering.plainText text

/-- Progress-bar width from line 1206: (step / totalSteps) * 100 when
totalSteps is positive, else 0; modelled over the rationals. -/
def progressWidth (totalSteps step : Nat) : ℚ :=
  if 0 < totalSteps then ((step : ℚ) / (totalSteps : ℚ)) * 100 else 0

/-- A session whose description is present but empty, with every other
optional field absent and no articles. -/
def cexSession : Session :=
  { id := "s"
    name := "n"
    day := 1
    time := "9:00"
    fourC := "Customer"
    coreTopics := []
    articles := []
    hasContent := true
    emptyReason := none
    description := some ""
    discussionPoints := none
    introspections := none
    resources := none }

/-- A session holding one video-break discussion point together with the
matching resource entry. -/
def vbSession : Session :=
  { id := "v"
    name := "n"
    day := 2
    time := "9:00"
    fourC := "Charisma"
    coreTopics := ["t"]
    articles := []
    hasContent := true
    emptyReason := none
    description := none
    discussionPoints := some ["Video Break: Clip"]
    introspections := none
    resources := some [{ title := "Clip", url := "https://yt/clip", source := none }] }

/-- The discussion-point block has one item per discussion point. -/
theorem dpItems_length (total : Nat) :
    ∀ (i : Nat) (l : List String), (dpItems total i l).length = l.length := by
  intro i l
  induction l generalizing i with
  | nil => rfl
  | cons t ts ih => simp [dpItems, ih]

/-- The discussion-point block consists of discussionPoint items only. -/
theorem dpItems_map_kind (total : Nat) :
    ∀ (i : Nat) (l : List String),
      (dpItems total i l).map kindOf = List.replicate l.length ItemKind.dp := by
  intro i l
  induction l generalizing i with
  | nil => rfl
  | cons t ts ih => simp [dpItems, ih, List.replicate_succ, kindOf]

/-- The introspection block consists of introspection items only. -/
theorem map_kind_introspection (l : List Introspection) :
    l.map (kindOf ∘ RevealItem.introspection) =
      List.replicate l.length ItemKind.intro := by
  induction l with
  | nil => rfl
  | cons x xs ih => simp [ih, List.replicate_succ, kindOf]

/-- Claim C1 (amended): the built sequence emits, in this fixed order, a
Description item exactly when the description is present AND non-empty (the
source guard is JavaScript truthiness, which drops an empty string), then
one CoreTopics item always, then one DiscussionPoint item per discussion
point, then one Introspection item per introspection, then one Resources
item when resources is present and non-empty, then one ArticleLinks marker
when articles is non-empty; consequently its length is the corresponding
sum, a missing optional list counting as empty. -/
theorem buildRevealItems_spec (s : Session) :
    (buildRevealItems s).map kindOf =
      (match s.description with
        | some d => if d != "" then [ItemKind.desc] else []
        | none => []) ++
      [ItemKind.core] ++
      List.replicate (s.discussionPoints.getD []).length ItemKind.dp ++
      List.replicate (s.introspections.getD []).length ItemKind.intro ++
      (if 0 < (s.resources.getD []).length then [ItemKind.res] else []) ++
      (if 0 < s.articles.length then [ItemKind.art] else []) ∧
    (buildRevealItems s).length =
      (match s.description with
        | some d => if d != "" then 1 else 0
        | none => 0) + 1 +
      (s.discussionPoints.getD []).length +
      (s.introspections.getD []).length +
      (if 0 < (s.resources.getD []).length then 1 else 0) +
      (if 0 < s.articles.length then 1 else 0) := by
  rcases s with ⟨id, nm, day, tm, fc, ct, arts, hc, er, desc, dps, intros, res⟩
  constructor
  · simp only [buildRevealItems]
    cases desc <;> cases dps <;> cases intros <;> cases res <;>
      simp [dpItems_map_kind, kindOf, List.map_append, map_kind_introspection] <;>
      split_ifs <;>
      simp [kindOf, map_kind_introspection]
  · simp only [buildRevealItems]
    cases desc <;> cases dps <;> cases intros <;> cases res <;>
      simp [dpItems_length] <;>
      split_ifs <;>
      simp <;>
      omega

/-- Counterexample to claim C1 as stated: a session whose description field
is present but holds the empty string emits no Description item, so the
sequence length is 1, not the 2 the claim formula (description present,
plus the core-topics item) predicts. -/
theorem buildRevealItems_description_cex :
    cexSession.description.isSome = true ∧
    buildRevealItems cexSession = [RevealItem.coreTopics []] ∧
    (buildRevealItems cexSession).length ≠ 1 + 1 := by
  refine ⟨rfl, by decide, by decide⟩

/-- Running groupAux over a run of pattern-matching points followed by a
list whose head does not match appends the stripped run to the accumulated
children and then continues grouping on the remainder. -/
theorem groupAux_run (rest : List String)
    (hrest : matchesNumbered (rest.headD "") = false) :
    ∀ (ms : List String) (head : String) (acc : List String),
      (∀ m ∈ ms, matchesNumbered m = true) →
      groupAux head acc (ms ++ rest) =
        (head, acc.reverse ++ ms.map stripNumbered) ::
          groupDiscussionPoints rest := by
  intro ms
  induction ms with
  | nil =>
    intro head acc _
    cases rest with
    | nil => simp [groupAux, groupDiscussionPoints]
    | cons r rs =>
      have hr : matchesNumbered r = false := hrest
      simp [groupAux, hr, groupDiscussionPoints]
  | cons m ms2 ih =>
    intro head acc hms
    have hm : matchesNumbered m = true := hms m (List.mem_cons_self _ _)
    simp only [List.cons_append, groupAux, hm, if_true, List.append_eq]
    rw [ih head (stripNumbered m :: acc)
      (fun x hx => hms x (List.mem_cons_of_mem _ hx))]
    simp

/-- Claim C2 (amended): every maximal run of number-dot-space points
immediately following a point p becomes, with prefixes stripped, the
children list of the group headed by p, and grouping continues with the
remainder; hence a matching point whose nearest preceding non-matching
point is p is recorded as a child of p, while a matching point with no
preceding point at all heads its own top-level group. -/
theorem grouping_spec (p : String) (ms rest : List String)
    (hms : ∀ m ∈ ms, matchesNumbered m = true)
    (hrest : matchesNumbered (rest.headD "") = false) :
    groupDiscussionPoints (p :: (ms ++ rest)) =
      (p, ms.map stripNumbered) :: groupDiscussionPoints rest := by
  have h := groupAux_run rest hrest ms p [] hms
  simpa [groupDiscussionPoints] using h

/-- Witness for C2 on the concrete example of the claim. -/
theorem grouping_spec_witness :
    groupDiscussionPoints ["Point A", "1. Sub one", "2. Sub two", "Point B"] =
      [("Point A", ["Sub one", "Sub two"]), ("Point B", [])] :=
  (grouping_spec "Point A" ["1. Sub one", "2. Sub two"] ["Point B"]
    (by decide) (by decide)).trans (by decide)

/-- Counterexample to claim C2 as stated: a list whose first point already
matches the number-dot-space pattern makes that point a top-level group
head, not a child of anything. -/
theorem grouping_cex :
    matchesNumbered "1. Sub one" = true ∧
    groupDiscussionPoints ["1. Sub one"] = [("1. Sub one", [])] := by
  refine ⟨by decide, by decide⟩

/-- Every discussion point is present in the block at its own index. -/
theorem dpItems_mem (total : Nat) :
    ∀ (l : List String) (i j : Nat) (t : String), l.get? j = some t →
      RevealItem.discussionPoint t (i + j) total ∈ dpItems total i l := by
  intro l
  induction l with
  | nil => intro i j t h; simp at h
  | cons x xs ih =>
    intro i j t h
    cases j with
    | zero =>
      simp only [List.get?_cons_zero, Option.some_inj] at h
      subst h
      simp [dpItems]
    | succ k =>
      simp only [List.get?_cons_succ] at h
      have hmem := ih (i + 1) k t h
      simp only [dpItems, List.mem_cons]
      right
      have harith : i + (k + 1) = i + 1 + k := by omega
      rw [harith]
      exact hmem

/-- Claim C9: a discussion point whose text starts with the video-break
marker is still a DiscussionPoint item of the built sequence at its source
index, and at render time the resource lookup by exact title equality with
the stripped text decides the rendering: a found resource renders as an
external link to its url, no resource renders as plain text. -/
theorem videoBreak_spec (s : Session) (dps : List String) (j : Nat)
    (text : String)
    (hdps : s.discussionPoints = some dps)
    (hj : dps.get? j = some text)
    (hvb : startsWithVB text = true) :
    RevealItem.discussionPoint text j dps.length ∈ buildRevealItems s ∧
    (∀ r : SessionResource, findVideoResource s.resources text = some r →
      r.title = stripVideoBreak text ∧
      renderDiscussionPoint s text = DPRendering.externalLink r.url) ∧
    (findVideoResource s.resources text = none →
      renderDiscussionPoint s text = DPRendering.plainText text) := by
  refine ⟨?_, ?_, ?_⟩
  · have hmem := dpItems_mem dps.length dps 0 j text hj
    simp only [Nat.zero_add] at hmem
    simp only [buildRevealItems, hdps, List.mem_append]
    tauto
  · intro r hr
    refine ⟨?_, ?_⟩
    · have hbeq := List.find?_some hr
      exact eq_of_beq hbeq
    · simp [renderDiscussionPoint, hvb, hr]
  · intro hnone
    simp [renderDiscussionPoint, hvb, hnone]

/-- Witness for C9 on a one-point session with a matching resource. -/
theorem videoBreak_spec_witness :
    RevealItem.discussionPoint "Video Break: Clip" 0
        (["Video Break: Clip"] : List String).length ∈
      buildRevealItems vbSession ∧
    (∀ r : SessionResource,
      findVideoResource vbSession.resources "Video Break: Clip" = some r →
      r.title = stripVideoBreak "Video Break: Clip" ∧
      renderDiscussionPoint vbSession "Video Break: Clip" =
        DPRendering.externalLink r.url) ∧
    (findVideoResource vbSession.resources "Video Break: Clip" = none →
      renderDiscussionPoint vbSession "Video Break: Clip" =
        DPRendering.plainText "Video Break: Clip") :=
  videoBreak_spec vbSession ["Video Break: Clip"] 0 "Video Break: Clip"
    rfl rfl (by decide)

/-- Any number of advances from a step that stays within bounds lands
exactly that many steps further. -/
theorem iterateAdvance_eq_add (totalSteps : Nat) :
    ∀ (n step : Nat), step + n ≤ totalSteps →
      iterateAdvance totalSteps n step = step + n := by
  intro n
  induction n with
  | zero => intro step _; simp [iterateAdvance]
  | succ k ih =>
    intro step h
    have hlt : step < totalSteps := by omega
    simp only [iterateAdvance, advance, if_pos hlt]
    rw [ih (step + 1) (by omega)]
    omega

/-- Claim C3: for any reveal state with step at most totalSteps, advance
(and the keyboard advance) increments by exactly one below the bound and is
the identity at the bound; totalSteps advances from 0 reach totalSteps and
one further advance leaves it unchanged. -/
theorem advance_spec (totalSteps step : Nat) (h : step ≤ totalSteps) :
    (step < totalSteps →
      advance totalSteps step = step + 1 ∧ keyAdvance totalSteps step = step + 1) ∧
    (step = totalSteps →
      advance totalSteps step = step ∧ keyAdvance totalSteps step = step) ∧
    iterateAdvance totalSteps totalSteps 0 = totalSteps ∧
    advance totalSteps totalSteps = totalSteps := by
  refine ⟨fun hlt => ⟨?_, ?_⟩, fun heq => ⟨?_, ?_⟩, ?_, ?_⟩
  · simp [advance, hlt]
  · simp only [keyAdvance]; omega
  · simp [advance, heq]
  · simp only [keyAdvance, heq]; omega
  · simpa using iterateAdvance_eq_add totalSteps totalSteps 0 (by omega)
  · simp [advance]

/-- Witness for C3 at totalSteps = 2, step = 1. -/
theorem advance_spec_witness :
    (1 < 2 → advance 2 1 = 1 + 1 ∧ keyAdvance 2 1 = 1 + 1) ∧
    (1 = 2 → advance 2 1 = 1 ∧ keyAdvance 2 1 = 1) ∧
    iterateAdvance 2 2 0 = 2 ∧ advance 2 2 = 2 :=
  advance_spec 2 1 (by decide)

/-- Claim C4: goBack (and the keyboard retreat) decrements by exactly one
when the step is positive and is the identity at zero. -/
theorem retreat_spec (step : Nat) :
    (0 < step → goBack step = step - 1 ∧ keyRetreat step = step - 1) ∧
    (step = 0 → goBack step = step ∧ keyRetreat step = step) := by
  constructor
  · intro hpos
    constructor
    · simp [goBack, hpos]
    · simp only [keyRetreat]; omega
  · intro h0
    subst h0
    constructor
    · simp [goBack]
    · simp only [keyRetreat]; omega

/-- Witness for C4 at step = 1. -/
theorem retreat_spec_witness :
    (0 < 1 → goBack 1 = 1 - 1 ∧ keyRetreat 1 = 1 - 1) ∧
    (1 = 0 → goBack 1 = 1 ∧ keyRetreat 1 = 1) :=
  retreat_spec 1

/-- Claim C5: revealAll sets the step to totalSteps from any state, a
subsequent collapse reset sets it to 0, and the collapse effect resets to 0
exactly when the card is not expanded. -/
theorem revealAll_reset_spec (totalSteps step extra : Nat) :
    revealAll totalSteps step = totalSteps ∧
    collapseReset false (revealAll totalSteps step) = 0 ∧
    collapseReset false extra = 0 ∧
    collapseReset true extra = extra :=
  ⟨rfl, rfl, rfl, rfl⟩

/-- Claim C6: with the classification flags of renderItem, an item at
position idx is invisible exactly when idx is at least step, past exactly
when idx is below step - 1, current exactly when idx equals step - 1; at
step 0 everything is invisible, at step 1 item 0 is current and nothing is
past, and at step = totalSteps the last item is current and every earlier
item is past. -/
theorem visibility_spec (totalSteps step idx : Nat) (h : step ≤ totalSteps) :
    (isVisible step idx = false ↔ step ≤ idx) ∧
    (isPast step idx = true ↔ idx + 1 < step) ∧
    (isCurrent step idx = true ↔ idx + 1 = step) ∧
    (step = 0 → isVisible step idx = false) ∧
    (step = 1 → isCurrent step 0 = true ∧ isPast step idx = false) ∧
    (step = totalSteps → idx + 1 = totalSteps → isCurrent step idx = true) ∧
    (step = totalSteps → idx + 1 < totalSteps → isPast step idx = true) := by
  simp only [isVisible, isPast, isCurrent, decide_eq_true_eq,
    decide_eq_false_iff_not, not_lt]
  omega

/-- Witness for C6 at totalSteps = 2, step = 2, idx = 0. -/
theorem visibility_spec_witness :
    (isVisible 2 0 = false ↔ 2 ≤ 0) ∧
    (isPast 2 0 = true ↔ 0 + 1 < 2) ∧
    (isCurrent 2 0 = true ↔ 0 + 1 = 2) ∧
    (2 = 0 → isVisible 2 0 = false) ∧
    (2 = 1 → isCurrent 2 0 = true ∧ isPast 2 0 = false) ∧
    (2 = 2 → 0 + 1 = 2 → isCurrent 2 0 = true) ∧
    (2 = 2 → 0 + 1 < 2 → isPast 2 0 = true) :=
  visibility_spec 2 2 0 (by decide)

/-- Claim C7: the invariant step at most totalSteps holds initially (0 as a
natural number is at most totalSteps) and is preserved by every transition:
advance, goBack, revealAll, the collapse reset in both directions, and the
two keyboard transitions. The lower bound 0 is inherent in the Nat state. -/
theorem reveal_invariant_spec (totalSteps step : Nat) (h : step ≤ totalSteps) :
    0 ≤ totalSteps ∧
    advance totalSteps step ≤ totalSteps ∧
    goBack step ≤ totalSteps ∧
    revealAll totalSteps step ≤ totalSteps ∧
    collapseReset false step ≤ totalSteps ∧
    collapseReset true step ≤ totalSteps ∧
    keyAdvance totalSteps step ≤ totalSteps ∧
    keyRetreat step ≤ totalSteps := by
  refine ⟨Nat.zero_le _, ?_, ?_, ?_, ?_, ?_, ?_, ?_⟩
  · simp only [advance]; split <;> omega
  · simp only [goBack]; split <;> omega
  · simp [revealAll]
  · simp [collapseReset]
  · simpa [collapseReset] using h
  · simp only [keyAdvance]; omega
  · simp only [keyRetreat]; omega

/-- Witness for C7 at totalSteps = 2, step = 1. -/
theorem reveal_invariant_spec_witness :
    0 ≤ 2 ∧
    advance 2 1 ≤ 2 ∧
    goBack 1 ≤ 2 ∧
    revealAll 2 1 ≤ 2 ∧
    collapseReset false 1 ≤ 2 ∧
    collapseReset true 1 ≤ 2 ∧
    keyAdvance 2 1 ≤ 2 ∧
    keyRetreat 1 ≤ 2 :=
  reveal_invariant_spec 2 1 (by decide)

/-- Claim C8: the drill navigator starts on the grid, openSection from the
grid reaches the requested section, goBackToGrid returns any non-grid
section to the grid, and goBackToGrid on the grid leaves it on the grid. -/
theorem drill_spec :
    initialSection = CognizanceSection.grid ∧
    (∀ c : CognizanceSection, openSection CognizanceSection.grid c = c) ∧
    (∀ s : CognizanceSection, s ≠ CognizanceSection.grid →
      goBackToGrid s = CognizanceSection.grid) ∧
    goBackToGrid CognizanceSection.grid = CognizanceSection.grid :=
  ⟨rfl, fun _ => rfl, fun _ _ => rfl, rfl⟩

/-- Witness for C8 at the culture section. -/
theorem drill_spec_witness :
    openSection CognizanceSection.grid CognizanceSection.culture =
      CognizanceSection.culture ∧
    goBackToGrid CognizanceSection.culture = CognizanceSection.grid ∧
    goBackToGrid CognizanceSection.grid = CognizanceSection.grid :=
  ⟨drill_spec.2.1 CognizanceSection.culture,
   drill_spec.2.2.1 CognizanceSection.culture (by decide),
   drill_spec.2.2.2⟩

/-- Claim C10: the progress fraction is total; for step at most totalSteps
it lies in [0, 100], equals (step / totalSteps) * 100 when totalSteps is
positive and is 0 when totalSteps is 0. -/
theorem progress_spec (totalSteps step : Nat) (h : step ≤ totalSteps) :
    0 ≤ progressWidth totalSteps step ∧
    progressWidth totalSteps step ≤ 100 ∧
    (0 < totalSteps →
      progressWidth totalSteps step = ((step : ℚ) / (totalSteps : ℚ)) * 100) ∧
    (totalSteps = 0 → progressWidth totalSteps step = 0) := by
  unfold progressWidth
  rcases Nat.eq_zero_or_pos totalSteps with h0 | hpos
  · subst h0
    norm_num
  · rw [if_pos hpos]
    have htot : (0 : ℚ) < (totalSteps : ℚ) := by exact_mod_cast hpos
    have hdiv : (step : ℚ) / (totalSteps : ℚ) ≤ 1 := by
      rw [div_le_one htot]
      exact_mod_cast h
    have hnn : (0 : ℚ) ≤ (step : ℚ) / (totalSteps : ℚ) := by positivity
    refine ⟨by positivity, by linarith, fun _ => rfl, fun hz => by omega⟩

/-- Witness for C10 at totalSteps = 2, step = 1. -/
theorem progress_spec_witness :
    0 ≤ progressWidth 2 1 ∧
    progressWidth 2 1 ≤ 100 ∧
    (0 < 2 → progressWidth 2 1 = (((1 : Nat) : ℚ) / ((2 : Nat) : ℚ)) * 100) ∧
    (2 = 0 → progressWidth 2 1 = 0) :=
  progress_spec 2 1 (by decide)

end LeadershipLab
